import Mathlib

/-!
Verification development for a quantitative derivatives pricing toolkit.

The definitions below are a shallow embedding of the repository's numerical
code: real numbers stand for Python floats, `Except PricingError` stands for
raised exceptions, and the standard-normal CDF/PDF from `scipy.stats.norm`
are threaded as explicit function parameters (`cdf`, `pdf`).
-/

noncomputable section

open Real

namespace PortfolioOpt

open scoped Classical

/-- Option kind: the repository dispatches on the strings `"call"`/`"put"`;
any other string raises, so the recognized kinds form a two-variant type. -/
inductive OptionType
  | call
  | put
deriving DecidableEq

/-- Error taxonomy of the repository (spec section 7): each `raise` site in
the source maps to one of these kinds. -/
inductive PricingError
  | invalidParameter
  | noArbitrageViolation
  | nonConvergence
  | degenerateInput
deriving DecidableEq

/-! ## Black-Scholes analytics (src/black_scholes.py) -/

/-- Embeds `d1_d2` (the computation part, without the validation guard):
returns the pair `(d1, d2)`. -/
def d1_d2 (S K r q sigma T : ℝ) : ℝ × ℝ :=
  let d1 := (Real.log (S / K) + (r - q + 0.5 * sigma * sigma) * T) / (sigma * Real.sqrt T)
  (d1, d1 - sigma * Real.sqrt T)

/-- Validation predicate of `_validate_inputs`: all of S, K, sigma, T positive. -/
def validInputs (S K sigma T : ℝ) : Prop :=
  0 < S ∧ 0 < K ∧ 0 < sigma ∧ 0 < T

/-- Embeds the formula of `bs_call_price` (after validation),
with the standard-normal CDF as parameter `cdf`. -/
def bs_call_price_core (cdf : ℝ → ℝ) (S K r q sigma T : ℝ) : ℝ :=
  S * Real.exp (-(q * T)) * cdf (d1_d2 S K r q sigma T).1
    - K * Real.exp (-(r * T)) * cdf (d1_d2 S K r q sigma T).2

/-- Embeds the formula of `bs_put_price` (after validation). -/
def bs_put_price_core (cdf : ℝ → ℝ) (S K r q sigma T : ℝ) : ℝ :=
  K * Real.exp (-(r * T)) * cdf (-(d1_d2 S K r q sigma T).2)
    - S * Real.exp (-(q * T)) * cdf (-(d1_d2 S K r q sigma T).1)

/-- Embeds `_validate_inputs` followed by the call-price formula:
raising `ValueError` becomes returning `Except.error .invalidParameter`. -/
def bs_call_price (cdf : ℝ → ℝ) (S K r q sigma T : ℝ) : Except PricingError ℝ :=
  if S ≤ 0 then .error .invalidParameter
  else if K ≤ 0 then .error .invalidParameter
  else if sigma ≤ 0 then .error .invalidParameter
  else if T ≤ 0 then .error .invalidParameter
  else .ok (bs_call_price_core cdf S K r q sigma T)

/-- Embeds `bs_put_price` with its validation guard. -/
def bs_put_price (cdf : ℝ → ℝ) (S K r q sigma T : ℝ) : Except PricingError ℝ :=
  if S ≤ 0 then .error .invalidParameter
  else if K ≤ 0 then .error .invalidParameter
  else if sigma ≤ 0 then .error .invalidParameter
  else if T ≤ 0 then .error .invalidParameter
  else .ok (bs_put_price_core cdf S K r q sigma T)

/-- Embeds the formula of `bs_delta` for each option kind (after validation). -/
def bs_delta_core (cdf : ℝ → ℝ) (S K r q sigma T : ℝ) : OptionType → ℝ
  | .call => Real.exp (-(q * T)) * cdf (d1_d2 S K r q sigma T).1
  | .put => Real.exp (-(q * T)) * (cdf (d1_d2 S K r q sigma T).1 - 1)

/-- Embeds the formula of `bs_vega` (after validation), with the
standard-normal PDF as parameter `pdf`. -/
def bs_vega_core (pdf : ℝ → ℝ) (S K r q sigma T : ℝ) : ℝ :=
  S * Real.exp (-(q * T)) * pdf (d1_d2 S K r q sigma T).1 * Real.sqrt T

/-- Embeds `bs_vega` with its validation guard. -/
def bs_vega (pdf : ℝ → ℝ) (S K r q sigma T : ℝ) : Except PricingError ℝ :=
  if S ≤ 0 then .error .invalidParameter
  else if K ≤ 0 then .error .invalidParameter
  else if sigma ≤ 0 then .error .invalidParameter
  else if T ≤ 0 then .error .invalidParameter
  else .ok (bs_vega_core pdf S K r q sigma T)

/-- Embeds the formula of `put_call_parity_check`:
`C - P - (S e^{-qT} - K e^{-rT})`. -/
def put_call_parity_check_core (cdf : ℝ → ℝ) (S K r q sigma T : ℝ) : ℝ :=
  bs_call_price_core cdf S K r q sigma T - bs_put_price_core cdf S K r q sigma T
    - (S * Real.exp (-(q * T)) - K * Real.exp (-(r * T)))

/-- Embeds `put_call_parity_check` including the validation performed by the
two pricer calls it makes. -/
def put_call_parity_check (cdf : ℝ → ℝ) (S K r q sigma T : ℝ) : Except PricingError ℝ := do
  let c ← bs_call_price cdf S K r q sigma T
  let p ← bs_put_price cdf S K r q sigma T
  pure (c - p - (S * Real.exp (-(q * T)) - K * Real.exp (-(r * T))))

/-- Embeds `bs_price`: dispatch on the option kind. -/
def bs_price (cdf : ℝ → ℝ) (S K r q sigma T : ℝ) : OptionType → Except PricingError ℝ
  | .call => bs_call_price cdf S K r q sigma T
  | .put => bs_put_price cdf S K r q sigma T

/-- Formula-level `bs_price` without validation guards. -/
def bs_price_core (cdf : ℝ → ℝ) (S K r q sigma T : ℝ) : OptionType → ℝ
  | .call => bs_call_price_core cdf S K r q sigma T
  | .put => bs_put_price_core cdf S K r q sigma T

/-! ## CRR lattice parameters (src/binomial.py) -/

/-- CRR up multiplier `u = exp(sigma * sqrt(dt))` from `crr_parameters`. -/
def crrU (sigma dt : ℝ) : ℝ := Real.exp (sigma * Real.sqrt dt)

/-- CRR down multiplier `d = 1/u` from `crr_parameters`. -/
def crrD (sigma dt : ℝ) : ℝ := 1 / crrU sigma dt

/-- CRR risk-neutral probability `p = (exp((r-q) dt) - d) / (u - d)`. -/
def crrP (r q sigma dt : ℝ) : ℝ :=
  (Real.exp ((r - q) * dt) - crrD sigma dt) / (crrU sigma dt - crrD sigma dt)

/-- Embeds `crr_parameters`: validates `sigma` and `dt`, computes `(u, d, p)`,
and raises the no-arbitrage error when `p` is outside `[0, 1]`. -/
def crr_parameters (r q sigma dt : ℝ) : Except PricingError (ℝ × ℝ × ℝ) :=
  if sigma ≤ 0 then .error .invalidParameter
  else if dt ≤ 0 then .error .invalidParameter
  else if ¬(0 ≤ crrP r q sigma dt ∧ crrP r q sigma dt ≤ 1) then .error .noArbitrageViolation
  else .ok (crrU sigma dt, crrD sigma dt, crrP r q sigma dt)

/-! ## CRR lattice with replication (src/binomial.py) -/

/-- Embeds `_payoff` (shared by binomial.py, monte_carlo.py, hedging.py):
`max(stock - K, 0)` for calls, `max(K - stock, 0)` for puts. -/
def payoff (K : ℝ) : OptionType → ℝ → ℝ
  | .call, s => max (s - K) 0
  | .put, s => max (K - s) 0

/-- Stock layer `step` of the CRR tree: `S0 * u^j * d^(step-j)` for
`j = 0 .. step`, as built by `replication_tree`. -/
def stockLayer (S0 u d : ℝ) (step : ℕ) : List ℝ :=
  (List.range (step + 1)).map fun j => S0 * u ^ j * d ^ (step - j)

/-- One backward-induction step of `replication_tree`:
`values[i] := disc * (p * values[i+1] + (1-p) * values[i])` elementwise. -/
def stepBack (disc p : ℝ) (v : List ℝ) : List ℝ :=
  List.zipWith (fun vd vu => disc * (p * vu + (1 - p) * vd)) v v.tail

/-- Iterated backward induction: `backSteps disc p m v` applies `stepBack`
`m` times to the layer `v`. -/
def backSteps (disc p : ℝ) : ℕ → List ℝ → List ℝ
  | 0, v => v
  | m + 1, v => stepBack disc p (backSteps disc p m v)

/-- Terminal option layer of `replication_tree`: instrument payoff at each
terminal stock node. -/
def terminalLayer (S0 u d K : ℝ) (ot : OptionType) (N : ℕ) : List ℝ :=
  (stockLayer S0 u d N).map (payoff K ot)

/-- Option layer `step` of `replication_tree`: the terminal layer propagated
backward `N - step` times. -/
def optionLayer (S0 K r q sigma T : ℝ) (N : ℕ) (ot : OptionType) (step : ℕ) : List ℝ :=
  backSteps (Real.exp (-(r * (T / N)))) (crrP r q sigma (T / N)) (N - step)
    (terminalLayer S0 (crrU sigma (T / N)) (crrD sigma (T / N)) K ot N)

/-- Elementwise replication deltas of one layer of `replication_tree`:
`delta = (Vu - Vd) / (Su - Sd)` over adjacent node pairs of the next layer. -/
def deltaLayer (stocks vals : List ℝ) : List ℝ :=
  List.zipWith (fun a b => (b.2 - a.2) / (b.1 - a.1))
    (stocks.zip vals) (stocks.zip vals).tail

/-- Elementwise replication bonds of one layer of `replication_tree`:
`bond = exp(-r dt) * (Vu - delta * Su)`. -/
def bondLayer (r dt : ℝ) (stocks vals : List ℝ) : List ℝ :=
  List.zipWith (fun a b => Real.exp (-(r * dt)) * (b.2 - (b.2 - a.2) / (b.1 - a.1) * b.1))
    (stocks.zip vals) (stocks.zip vals).tail

/-- Root option value of `replication_tree` (`option_layers[0][0]`). -/
def rootPrice (S0 K r q sigma T : ℝ) (N : ℕ) (ot : OptionType) : ℝ :=
  (optionLayer S0 K r q sigma T N ot 0).getD 0 0

/-- Root replicating value of `replication_tree`
(`delta_layers[0][0] * S0 + bond_layers[0][0]`). -/
def rootRepl (S0 K r q sigma T : ℝ) (N : ℕ) (ot : OptionType) : ℝ :=
  (deltaLayer (stockLayer S0 (crrU sigma (T / N)) (crrD sigma (T / N)) 1)
      (optionLayer S0 K r q sigma T N ot 1)).getD 0 0 * S0
    + (bondLayer r (T / N) (stockLayer S0 (crrU sigma (T / N)) (crrD sigma (T / N)) 1)
      (optionLayer S0 K r q sigma T N ot 1)).getD 0 0

/-- The diagnostic `root_replication_gap` reported by `replication_tree`. -/
def rootReplicationGap (S0 K r q sigma T : ℝ) (N : ℕ) (ot : OptionType) : ℝ :=
  rootRepl S0 K r q sigma T N ot - rootPrice S0 K r q sigma T N ot

/-- Embeds `replication_one_step`: raises the degenerate-input error when
`Su = Sd`, otherwise returns the replication pair `(delta, bond)`. -/
def replication_one_step (Su Sd Vu Vd r dt : ℝ) : Except PricingError (ℝ × ℝ) :=
  if Su = Sd then .error .degenerateInput
  else .ok ((Vu - Vd) / (Su - Sd), Real.exp (-(r * dt)) * (Vu - (Vu - Vd) / (Su - Sd) * Su))

/-! ### Lattice layer lemmas -/

/-- One backward step shortens a layer by exactly one node. -/
theorem stepBack_length (disc p : ℝ) (v : List ℝ) :
    (stepBack disc p v).length = v.length - 1 := by
  simp [stepBack]

/-- Iterated backward steps shorten a layer by the step count. -/
theorem backSteps_length (disc p : ℝ) (m : ℕ) (v : List ℝ) :
    (backSteps disc p m v).length = v.length - m := by
  induction m with
  | zero => simp [backSteps]
  | succ m ih =>
    rw [backSteps, stepBack_length, ih]
    omega

/-- A terminal layer for `N` steps has `N + 1` nodes. -/
theorem terminalLayer_length (S0 u d K : ℝ) (ot : OptionType) (N : ℕ) :
    (terminalLayer S0 u d K ot N).length = N + 1 := by
  simp [terminalLayer, stockLayer]

/-- The CRR multipliers satisfy `d < u` for positive sigma and dt. -/
theorem crrD_lt_crrU (sigma dt : ℝ) (hsigma : 0 < sigma) (hdt : 0 < dt) :
    crrD sigma dt < crrU sigma dt := by
  have hx : 0 < sigma * Real.sqrt dt := mul_pos hsigma (Real.sqrt_pos.2 hdt)
  have h1 : crrD sigma dt = Real.exp (-(sigma * Real.sqrt dt)) := by
    rw [crrD, crrU, one_div, ← Real.exp_neg]
  rw [h1, crrU]
  exact Real.exp_lt_exp.2 (by linarith)

/-- Layer 1 of the backward-priced option tree has exactly two nodes. -/
theorem optionLayer_one_length (S0 K r q sigma T : ℝ) (N : ℕ) (hN : 1 ≤ N) (ot : OptionType) :
    (optionLayer S0 K r q sigma T N ot 1).length = 2 := by
  rw [optionLayer, backSteps_length, terminalLayer_length]
  omega

/-- The root layer is one backward step past layer 1. -/
theorem optionLayer_zero_eq (S0 K r q sigma T : ℝ) (N : ℕ) (hN : 1 ≤ N) (ot : OptionType) :
    optionLayer S0 K r q sigma T N ot 0
      = stepBack (Real.exp (-(r * (T / N)))) (crrP r q sigma (T / N))
          (optionLayer S0 K r q sigma T N ot 1) := by
  rw [optionLayer, optionLayer]
  have h : N - 0 = (N - 1) + 1 := by omega
  rw [h, backSteps]

/-! ## Claim C1: root replication gap -/

/-- C1 (amended): with zero dividend yield `q = 0`, for every valid parameter
set and step count with risk-neutral probability in `[0, 1]`, the root
replicating value of `replication_tree` equals the root option value exactly,
so the reported `root_replication_gap` is within 1e-10 of zero. -/
theorem c1_root_replication_gap_zero_when_q_zero
    (S0 K r sigma T : ℝ) (N : ℕ) (ot : OptionType)
    (hS0 : 0 < S0) (hK : 0 < K) (hsigma : 0 < sigma) (hT : 0 < T) (hN : 1 ≤ N)
    (hp : 0 ≤ crrP r 0 sigma (T / N) ∧ crrP r 0 sigma (T / N) ≤ 1) :
    |rootReplicationGap S0 K r 0 sigma T N ot| ≤ 1e-10 := by
  have hNpos : (0:ℝ) < (N : ℝ) := by exact_mod_cast Nat.lt_of_lt_of_le Nat.zero_lt_one hN
  have hdt : 0 < T / (N : ℝ) := div_pos hT hNpos
  have hud : crrD sigma (T / N) < crrU sigma (T / N) := crrD_lt_crrU sigma (T / N) hsigma hdt
  have hne : crrU sigma (T / N) - crrD sigma (T / N) ≠ 0 := sub_ne_zero.2 hud.ne'
  obtain ⟨a, b, hab⟩ :=
    List.length_eq_two.1 (optionLayer_one_length S0 K r 0 sigma T N hN ot)
  have hzero : rootReplicationGap S0 K r 0 sigma T N ot = 0 := by
    rw [rootReplicationGap, rootRepl, rootPrice, optionLayer_zero_eq S0 K r 0 sigma T N hN ot,
      hab]
    have hstockne : S0 * crrU sigma (T / N) ^ 1 * crrD sigma (T / N) ^ 0
        - S0 * crrU sigma (T / N) ^ 0 * crrD sigma (T / N) ^ 1 ≠ 0 := by
      simp only [pow_one, pow_zero, mul_one, one_mul]
      have : S0 * crrU sigma (T / N) - S0 * crrD sigma (T / N)
          = S0 * (crrU sigma (T / N) - crrD sigma (T / N)) := by ring
      rw [this]
      exact mul_ne_zero hS0.ne' hne
    simp only [stockLayer, List.range_succ, List.range_zero, List.nil_append,
      List.cons_append, List.map_cons, List.map_nil, deltaLayer, bondLayer, stepBack,
      List.zip_cons_cons, List.zip_nil_right, List.tail_cons, List.zipWith_cons_cons,
      List.zipWith_nil_right, List.getD_cons_zero]
    simp only [pow_one, pow_zero, mul_one, one_mul] at hstockne ⊢
    rw [crrP, Real.exp_neg]
    simp only [sub_zero]
    have hC : crrD sigma (T / N) = (crrU sigma (T / N))⁻¹ := by rw [crrD, one_div]
    field_simp
    ring
  rw [hzero]
  norm_num

/-- Witness for the amended C1 at S0=100, K=100, r=0.02, q=0, sigma=0.2,
T=1, N=1 (where the risk-neutral probability lies in `[0, 1]`). -/
theorem c1_root_replication_gap_zero_when_q_zero_witness :
    |rootReplicationGap 100 100 (2 / 100) 0 (1 / 5) 1 1 .call| ≤ 1e-10 := by
  have hdt : (1:ℝ) / ((1:ℕ):ℝ) = 1 := by norm_num
  have hsq : Real.sqrt ((1:ℝ) / ((1:ℕ):ℝ)) = 1 := by rw [hdt, Real.sqrt_one]
  have hU : crrU (1 / 5) ((1:ℝ) / ((1:ℕ):ℝ)) = Real.exp (1 / 5) := by
    rw [crrU, hsq, mul_one]
  have hD : crrD (1 / 5) ((1:ℝ) / ((1:ℕ):ℝ)) = Real.exp (-(1 / 5)) := by
    rw [crrD, hU, one_div, ← Real.exp_neg]
  refine c1_root_replication_gap_zero_when_q_zero 100 100 (2 / 100) (1 / 5) 1 1 .call
    (by norm_num) (by norm_num) (by norm_num) (by norm_num) (le_refl 1) ⟨?_, ?_⟩
  · rw [crrP, hU, hD]
    apply div_nonneg
    · have : Real.exp (-(1 / 5)) ≤ Real.exp ((2 / 100 - 0) * (1 / ((1:ℕ):ℝ))) :=
        Real.exp_le_exp.2 (by rw [hdt]; norm_num)
      linarith
    · have : Real.exp (-(1 / 5)) < Real.exp (1 / 5) := Real.exp_lt_exp.2 (by norm_num)
      linarith
  · rw [crrP, hU, hD]
    rw [div_le_one (by
      have : Real.exp (-(1 / 5)) < Real.exp (1 / 5) := Real.exp_lt_exp.2 (by norm_num)
      linarith)]
    have : Real.exp ((2 / 100 - 0) * (1 / ((1:ℕ):ℝ))) ≤ Real.exp (1 / 5) :=
      Real.exp_le_exp.2 (by rw [hdt]; norm_num)
    linarith

/-- Counterexample to C1 as stated: at S0=100, K=50, r=0, q=0.01 (nonzero
dividend yield), sigma=0.2, T=1, N=1, the risk-neutral probability lies in
`[0, 1]` yet the reported `root_replication_gap` is `100 (1 - e^{-0.01})`,
far above 1e-10. -/
theorem c1_root_replication_gap_counterexample :
    (0 ≤ crrP 0 (1 / 100) (1 / 5) ((1:ℝ) / ((1:ℕ):ℝ))
        ∧ crrP 0 (1 / 100) (1 / 5) ((1:ℝ) / ((1:ℕ):ℝ)) ≤ 1)
      ∧ ¬(|rootReplicationGap 100 50 0 (1 / 100) (1 / 5) 1 1 .call| ≤ 1e-10) := by
  have hdt : (1:ℝ) / ((1:ℕ):ℝ) = 1 := by norm_num
  have hsq : Real.sqrt ((1:ℝ) / ((1:ℕ):ℝ)) = 1 := by rw [hdt, Real.sqrt_one]
  have hU : crrU (1 / 5) ((1:ℝ) / ((1:ℕ):ℝ)) = Real.exp (1 / 5) := by
    rw [crrU, hsq, mul_one]
  have hD : crrD (1 / 5) ((1:ℝ) / ((1:ℕ):ℝ)) = Real.exp (-(1 / 5)) := by
    rw [crrD, hU, one_div, ← Real.exp_neg]
  have harg : ((0:ℝ) - 1 / 100) * ((1:ℝ) / ((1:ℕ):ℝ)) = -(1 / 100) := by norm_num
  have hlt : Real.exp (-(1 / 5) : ℝ) < Real.exp (1 / 5) := Real.exp_lt_exp.2 (by norm_num)
  have h45 : (4:ℝ) / 5 ≤ Real.exp (-(1 / 5)) := by
    have := Real.add_one_le_exp (-(1 / 5) : ℝ)
    linarith
  have h65 : (6:ℝ) / 5 ≤ Real.exp (1 / 5) := by
    have := Real.add_one_le_exp ((1:ℝ) / 5)
    linarith
  constructor
  · constructor
    · rw [crrP, hU, hD, harg]
      apply div_nonneg
      · have : Real.exp (-(1 / 5) : ℝ) ≤ Real.exp (-(1 / 100)) :=
          Real.exp_le_exp.2 (by norm_num)
        linarith
      · linarith
    · rw [crrP, hU, hD, harg, div_le_one (by linarith)]
      have : Real.exp (-(1 / 100) : ℝ) ≤ Real.exp (1 / 5) :=
        Real.exp_le_exp.2 (by norm_num)
      linarith
  · have hune : Real.exp ((1:ℝ) / 5) - Real.exp (-(1 / 5)) ≠ 0 := sub_ne_zero.2 hlt.ne'
    have key : rootReplicationGap 100 50 0 (1 / 100) (1 / 5) 1 1 .call
        = 100 - 100 * Real.exp (-(1 / 100)) := by
      have hlayer1 : optionLayer 100 50 0 (1 / 100) (1 / 5) 1 1 .call 1
          = [100 * Real.exp (-(1 / 5)) - 50, 100 * Real.exp (1 / 5) - 50] := by
        rw [optionLayer]
        simp only [Nat.sub_self, backSteps, terminalLayer, stockLayer, List.range_succ,
          List.range_zero, List.nil_append, List.cons_append, List.map_cons, List.map_nil,
          payoff, hU, hD, pow_zero, pow_one, mul_one, one_mul, Nat.sub_zero]
        rw [max_eq_left (by linarith), max_eq_left (by linarith)]
      rw [rootReplicationGap, rootRepl, rootPrice,
        optionLayer_zero_eq 100 50 0 (1 / 100) (1 / 5) 1 1 (le_refl 1) .call, hlayer1]
      simp only [stockLayer, List.range_succ, List.range_zero, List.nil_append,
        List.cons_append, List.map_cons, List.map_nil, deltaLayer, bondLayer, stepBack,
        List.zip_cons_cons, List.zip_nil_right, List.tail_cons, List.zipWith_cons_cons,
        List.zipWith_nil_right, List.getD_cons_zero, pow_zero, pow_one, mul_one, one_mul,
        hU, hD, crrP, harg]
      have hdisc : Real.exp (-(0 * ((1:ℝ) / ((1:ℕ):ℝ)))) = 1 := by
        norm_num [Real.exp_zero]
      rw [hdisc]
      set A := Real.exp ((1:ℝ) / 5) with hA
      set B := Real.exp (-(1 / 5) : ℝ) with hB
      set E := Real.exp (-(1 / 100) : ℝ) with hE
      have h2 : 100 * A - 100 * B ≠ 0 := by
        intro h
        apply hune
        linarith
      have h3 : A * 100 - B * 100 ≠ 0 := by
        intro h
        apply hune
        linarith
      field_simp
      ring
    rw [key]
    have hmul : Real.exp (-(1 / 100) : ℝ) * Real.exp (1 / 100) = 1 := by
      rw [← Real.exp_add]
      norm_num [Real.exp_zero]
    have hplus : (1:ℝ) + 1 / 100 ≤ Real.exp (1 / 100) := by
      have := Real.add_one_le_exp ((1:ℝ) / 100)
      linarith
    have hEpos : (0:ℝ) < Real.exp (-(1 / 100)) := Real.exp_pos _
    have hEle : Real.exp (-(1 / 100) : ℝ) ≤ 100 / 101 := by
      nlinarith
    rw [abs_of_pos (by nlinarith)]
    push_neg
    nlinarith

/-! ## Claim C10: coincident-node guard unreachable -/

/-- Entry `j` of stock layer `step` is `S0 * u^j * d^(step-j)`. -/
theorem stockLayer_getD (S0 u d : ℝ) (step j : ℕ) (hj : j < step + 1) :
    (stockLayer S0 u d step).getD j 0 = S0 * u ^ j * d ^ (step - j) := by
  rw [stockLayer, List.getD_eq_getElem _ _ (by simpa using hj)]
  simp

/-- C10: for every valid input to `replication_tree` (S0, sigma, T positive,
N >= 1), at every step the adjacent stock values satisfy `Sd < Su` strictly,
the replication divisor `Su - Sd` is nonzero, and `replication_one_step`
returns normally (the degenerate-input error is unreachable). -/
theorem c10_adjacent_stock_nodes_distinct
    (S0 sigma T r Vu Vd : ℝ) (N step j : ℕ)
    (hS0 : 0 < S0) (hsigma : 0 < sigma) (hT : 0 < T) (hN : 1 ≤ N)
    (hstep : step < N) (hj : j ≤ step) :
    (stockLayer S0 (crrU sigma (T / N)) (crrD sigma (T / N)) (step + 1)).getD j 0
        < (stockLayer S0 (crrU sigma (T / N)) (crrD sigma (T / N)) (step + 1)).getD (j + 1) 0
      ∧ (stockLayer S0 (crrU sigma (T / N)) (crrD sigma (T / N)) (step + 1)).getD (j + 1) 0
          - (stockLayer S0 (crrU sigma (T / N)) (crrD sigma (T / N)) (step + 1)).getD j 0 ≠ 0
      ∧ replication_one_step
          ((stockLayer S0 (crrU sigma (T / N)) (crrD sigma (T / N)) (step + 1)).getD (j + 1) 0)
          ((stockLayer S0 (crrU sigma (T / N)) (crrD sigma (T / N)) (step + 1)).getD j 0)
          Vu Vd r (T / N)
        = .ok ((Vu - Vd)
              / ((stockLayer S0 (crrU sigma (T / N)) (crrD sigma (T / N)) (step + 1)).getD (j + 1) 0
                - (stockLayer S0 (crrU sigma (T / N)) (crrD sigma (T / N)) (step + 1)).getD j 0),
            Real.exp (-(r * (T / N)))
              * (Vu - (Vu - Vd)
                  / ((stockLayer S0 (crrU sigma (T / N)) (crrD sigma (T / N)) (step + 1)).getD (j + 1) 0
                    - (stockLayer S0 (crrU sigma (T / N)) (crrD sigma (T / N)) (step + 1)).getD j 0)
                  * (stockLayer S0 (crrU sigma (T / N)) (crrD sigma (T / N)) (step + 1)).getD (j + 1) 0)) := by
  have hNpos : (0:ℝ) < (N : ℝ) := by exact_mod_cast Nat.lt_of_lt_of_le Nat.zero_lt_one hN
  have hdt : 0 < T / (N : ℝ) := div_pos hT hNpos
  have hupos : 0 < crrU sigma (T / N) := Real.exp_pos _
  have hdpos : 0 < crrD sigma (T / N) := by
    rw [crrD]
    positivity
  have hdu : crrD sigma (T / N) < crrU sigma (T / N) := crrD_lt_crrU sigma (T / N) hsigma hdt
  have hgetj : (stockLayer S0 (crrU sigma (T / N)) (crrD sigma (T / N)) (step + 1)).getD j 0
      = S0 * crrU sigma (T / N) ^ j * crrD sigma (T / N) ^ (step + 1 - j) :=
    stockLayer_getD _ _ _ _ _ (by omega)
  have hgetj1 : (stockLayer S0 (crrU sigma (T / N)) (crrD sigma (T / N)) (step + 1)).getD (j + 1) 0
      = S0 * crrU sigma (T / N) ^ (j + 1) * crrD sigma (T / N) ^ (step - j) :=
    by
      rw [stockLayer_getD _ _ _ _ _ (by omega)]
      congr 2
      omega
  have hlt : (stockLayer S0 (crrU sigma (T / N)) (crrD sigma (T / N)) (step + 1)).getD j 0
      < (stockLayer S0 (crrU sigma (T / N)) (crrD sigma (T / N)) (step + 1)).getD (j + 1) 0 := by
    rw [hgetj, hgetj1]
    have hsplit : step + 1 - j = (step - j) + 1 := by omega
    rw [hsplit, pow_succ, pow_succ]
    have hbase : 0 < S0 * crrU sigma (T / N) ^ j * crrD sigma (T / N) ^ (step - j) := by
      positivity
    calc S0 * crrU sigma (T / N) ^ j * (crrD sigma (T / N) ^ (step - j) * crrD sigma (T / N))
        = S0 * crrU sigma (T / N) ^ j * crrD sigma (T / N) ^ (step - j)
            * crrD sigma (T / N) := by ring
      _ < S0 * crrU sigma (T / N) ^ j * crrD sigma (T / N) ^ (step - j)
            * crrU sigma (T / N) := by exact mul_lt_mul_of_pos_left hdu hbase
      _ = S0 * (crrU sigma (T / N) ^ j * crrU sigma (T / N)) * crrD sigma (T / N) ^ (step - j) := by
            ring
  refine ⟨hlt, sub_ne_zero.2 hlt.ne', ?_⟩
  rw [replication_one_step, if_neg hlt.ne']

/-- Witness for C10 at S0=100, sigma=1, T=1, N=1, step=0, j=0, Vu=1, Vd=0,
r=0. -/
theorem c10_adjacent_stock_nodes_distinct_witness :
    (stockLayer 100 (crrU 1 (1 / ((1:ℕ):ℝ))) (crrD 1 (1 / ((1:ℕ):ℝ))) 1).getD 0 0
        < (stockLayer 100 (crrU 1 (1 / ((1:ℕ):ℝ))) (crrD 1 (1 / ((1:ℕ):ℝ))) 1).getD 1 0
      ∧ (stockLayer 100 (crrU 1 (1 / ((1:ℕ):ℝ))) (crrD 1 (1 / ((1:ℕ):ℝ))) 1).getD 1 0
          - (stockLayer 100 (crrU 1 (1 / ((1:ℕ):ℝ))) (crrD 1 (1 / ((1:ℕ):ℝ))) 1).getD 0 0 ≠ 0
      ∧ replication_one_step
          ((stockLayer 100 (crrU 1 (1 / ((1:ℕ):ℝ))) (crrD 1 (1 / ((1:ℕ):ℝ))) 1).getD 1 0)
          ((stockLayer 100 (crrU 1 (1 / ((1:ℕ):ℝ))) (crrD 1 (1 / ((1:ℕ):ℝ))) 1).getD 0 0)
          1 0 0 (1 / ((1:ℕ):ℝ))
        = .ok ((1 - 0)
              / ((stockLayer 100 (crrU 1 (1 / ((1:ℕ):ℝ))) (crrD 1 (1 / ((1:ℕ):ℝ))) 1).getD 1 0
                - (stockLayer 100 (crrU 1 (1 / ((1:ℕ):ℝ))) (crrD 1 (1 / ((1:ℕ):ℝ))) 1).getD 0 0),
            Real.exp (-(0 * (1 / ((1:ℕ):ℝ))))
              * (1 - (1 - 0)
                  / ((stockLayer 100 (crrU 1 (1 / ((1:ℕ):ℝ))) (crrD 1 (1 / ((1:ℕ):ℝ))) 1).getD 1 0
                    - (stockLayer 100 (crrU 1 (1 / ((1:ℕ):ℝ))) (crrD 1 (1 / ((1:ℕ):ℝ))) 1).getD 0 0)
                  * (stockLayer 100 (crrU 1 (1 / ((1:ℕ):ℝ))) (crrD 1 (1 / ((1:ℕ):ℝ))) 1).getD 1 0)) :=
  c10_adjacent_stock_nodes_distinct 100 1 1 0 1 0 1 0 0
    (by norm_num) (by norm_num) (by norm_num) (le_refl 1) Nat.zero_lt_one (le_refl 0)

/-! ## Monte Carlo control variate (src/monte_carlo.py) -/

/-- Sample mean, as `np.mean`. -/
def sampleMean {n : ℕ} (v : Fin n → ℝ) : ℝ := (∑ i, v i) / n

/-- Sample variance with one delta degree of freedom, as `np.var(v, ddof=1)`. -/
def sampleVar {n : ℕ} (v : Fin n → ℝ) : ℝ :=
  (∑ i, (v i - sampleMean v) ^ 2) / ((n : ℝ) - 1)

/-- Sample covariance with one delta degree of freedom, as the off-diagonal
entry of `np.cov(y, x, ddof=1)`. -/
def sampleCov {n : ℕ} (y x : Fin n → ℝ) : ℝ :=
  (∑ i, (y i - sampleMean y) * (x i - sampleMean x)) / ((n : ℝ) - 1)

/-- The control-variate coefficient of `mc_control_variate_with_terminal_asset`:
`b = cov / var_x if var_x > 0 else 0.0`. -/
def cvBeta {n : ℕ} (y x : Fin n → ℝ) : ℝ :=
  if 0 < sampleVar x then sampleCov y x / sampleVar x else 0

/-- Terminal asset draw of `mc_control_variate_with_terminal_asset`:
`ST = S0 exp((r - q - 0.5 sigma^2) T + sigma sqrt(T) z)`. -/
def mcTerminalAsset (S0 r q sigma T : ℝ) {n : ℕ} (z : Fin n → ℝ) (i : Fin n) : ℝ :=
  S0 * Real.exp ((r - q - 0.5 * sigma * sigma) * T + sigma * Real.sqrt T * z i)

/-- Discounted payoff sample `Y` of `mc_control_variate_with_terminal_asset`. -/
def mcPayoffY (S0 K r q sigma T : ℝ) (ot : OptionType) {n : ℕ} (z : Fin n → ℝ) (i : Fin n) : ℝ :=
  Real.exp (-(r * T)) * payoff K ot (mcTerminalAsset S0 r q sigma T z i)

/-- Discounted terminal-asset control sample `X`. -/
def mcControlX (S0 r q sigma T : ℝ) {n : ℕ} (z : Fin n → ℝ) (i : Fin n) : ℝ :=
  Real.exp (-(r * T)) * mcTerminalAsset S0 r q sigma T z i

/-- Known expectation of the control, `EX = S0 exp(-qT)`. -/
def mcControlEX (S0 q T : ℝ) : ℝ := S0 * Real.exp (-(q * T))

/-- The adjusted estimator sample `Y_cv = Y - b (X - EX)` reported by
`mc_control_variate_with_terminal_asset`. -/
def mcAdjustedY (S0 K r q sigma T : ℝ) (ot : OptionType) {n : ℕ} (z : Fin n → ℝ)
    (i : Fin n) : ℝ :=
  mcPayoffY S0 K r q sigma T ot z i
    - cvBeta (mcPayoffY S0 K r q sigma T ot z) (mcControlX S0 r q sigma T z)
      * (mcControlX S0 r q sigma T z i - mcControlEX S0 q T)

/-- Shifting a sample by `c (x - EX)` shifts its mean accordingly. -/
theorem sampleMean_shift {n : ℕ} (y x : Fin n → ℝ) (c EX : ℝ) (hn : 2 ≤ n) :
    sampleMean (fun i => y i - c * (x i - EX))
      = sampleMean y - c * (sampleMean x - EX) := by
  have hn0 : ((n : ℝ)) ≠ 0 := by
    have : 0 < n := by omega
    exact_mod_cast this.ne'
  unfold sampleMean
  have hsum : ∑ i, (y i - c * (x i - EX)) = (∑ i, y i) - c * ((∑ i, x i) - n * EX) := by
    rw [Finset.sum_sub_distrib, ← Finset.mul_sum]
    congr 1
    rw [Finset.sum_sub_distrib]
    simp [Finset.sum_const, Finset.card_univ, nsmul_eq_mul]
  rw [hsum]
  field_simp

/-- Variance expansion of the adjusted estimator:
`Var(Y - c(X - EX)) = Var Y - 2 c Cov(Y,X) + c^2 Var X`. -/
theorem sampleVar_shift {n : ℕ} (y x : Fin n → ℝ) (c EX : ℝ) (hn : 2 ≤ n) :
    sampleVar (fun i => y i - c * (x i - EX))
      = sampleVar y - 2 * c * sampleCov y x + c ^ 2 * sampleVar x := by
  unfold sampleVar sampleCov
  rw [sampleMean_shift y x c EX hn]
  have hsum : ∑ i, ((y i - c * (x i - EX)) - (sampleMean y - c * (sampleMean x - EX))) ^ 2
      = (∑ i, (y i - sampleMean y) ^ 2)
        - 2 * c * (∑ i, (y i - sampleMean y) * (x i - sampleMean x))
        + c ^ 2 * (∑ i, (x i - sampleMean x) ^ 2) := by
    rw [Finset.mul_sum, Finset.mul_sum, ← Finset.sum_sub_distrib, ← Finset.sum_add_distrib]
    exact Finset.sum_congr rfl fun i _ => by ring
  rw [hsum]
  ring

/-- Core variance-reduction fact: with the in-sample optimal coefficient the
adjusted estimator's sample variance cannot exceed the raw one. -/
theorem cv_variance_reduction {n : ℕ} (y x : Fin n → ℝ) (EX : ℝ) (hn : 2 ≤ n)
    (hvx : 0 < sampleVar x) :
    sampleVar (fun i => y i - cvBeta y x * (x i - EX)) ≤ sampleVar y := by
  have hc : cvBeta y x = sampleCov y x / sampleVar x := by rw [cvBeta, if_pos hvx]
  rw [sampleVar_shift y x (cvBeta y x) EX hn, hc]
  have hkey : sampleVar y - 2 * (sampleCov y x / sampleVar x) * sampleCov y x
      + (sampleCov y x / sampleVar x) ^ 2 * sampleVar x
      = sampleVar y - sampleCov y x ^ 2 / sampleVar x := by
    field_simp
    ring
  rw [hkey]
  have : 0 ≤ sampleCov y x ^ 2 / sampleVar x := div_nonneg (sq_nonneg _) hvx.le
  linarith

/-! ## Claim C4: control variate never increases sample variance -/

/-- C4: for every sample of n >= 2 draws with positive sample variance of the
control `X`, the sample variance (ddof=1) of the adjusted estimator
`Y - b (X - E[X])` used by `mc_control_variate_with_terminal_asset`, with `b`
the in-sample optimum `Cov(Y,X)/Var(X)`, is at most the sample variance of
the raw payoff `Y`. -/
theorem c4_control_variate_variance_reduction
    (S0 K r q sigma T : ℝ) (ot : OptionType) (n : ℕ) (z : Fin n → ℝ)
    (hn : 2 ≤ n) (hvx : 0 < sampleVar (mcControlX S0 r q sigma T z)) :
    sampleVar (mcAdjustedY S0 K r q sigma T ot z)
      ≤ sampleVar (mcPayoffY S0 K r q sigma T ot z) := by
  unfold mcAdjustedY
  exact cv_variance_reduction _ _ _ hn hvx

/-- A two-point sample with distinct values has positive sample variance. -/
theorem sampleVar_pos_of_ne (v : Fin 2 → ℝ) (h : v 0 ≠ v 1) : 0 < sampleVar v := by
  have hz : v 0 - v 1 ≠ 0 := sub_ne_zero.2 h
  have hsq : 0 < (v 0 - v 1) ^ 2 :=
    lt_of_le_of_ne (sq_nonneg _) (Ne.symm (pow_ne_zero 2 hz))
  unfold sampleVar sampleMean
  rw [Fin.sum_univ_two, Fin.sum_univ_two]
  have hcast : ((2:ℕ) : ℝ) = 2 := by norm_num
  rw [hcast]
  nlinarith

/-- Witness for C4: two draws z = (0, 1) at S0 = 1, K = 1, r = q = 0,
sigma = 1, T = 1, call. -/
theorem c4_control_variate_variance_reduction_witness :
    sampleVar (mcAdjustedY 1 1 0 0 1 1 .call ![0, 1])
      ≤ sampleVar (mcPayoffY 1 1 0 0 1 1 .call ![0, 1]) := by
  refine c4_control_variate_variance_reduction 1 1 0 0 1 1 .call 2 ![0, 1] (le_refl 2) ?_
  apply sampleVar_pos_of_ne
  have h0 : mcControlX 1 0 0 1 1 ![0, 1] 0
      = Real.exp (-(0 * 1)) * (1 * Real.exp ((0 - 0 - 0.5 * 1 * 1) * 1 + 1 * Real.sqrt 1 * 0)) := by
    rfl
  have h1 : mcControlX 1 0 0 1 1 ![0, 1] 1
      = Real.exp (-(0 * 1)) * (1 * Real.exp ((0 - 0 - 0.5 * 1 * 1) * 1 + 1 * Real.sqrt 1 * 1)) := by
    rfl
  rw [h0, h1]
  have harg0 : ((0:ℝ) - 0 - 0.5 * 1 * 1) * 1 + 1 * Real.sqrt 1 * 0 = -(1 / 2) := by
    rw [Real.sqrt_one]
    norm_num
  have harg1 : ((0:ℝ) - 0 - 0.5 * 1 * 1) * 1 + 1 * Real.sqrt 1 * 1 = 1 / 2 := by
    rw [Real.sqrt_one]
    norm_num
  rw [harg0, harg1]
  have : Real.exp (-(1 / 2) : ℝ) < Real.exp (1 / 2) := Real.exp_lt_exp.2 (by norm_num)
  have hne : Real.exp (-(1 / 2) : ℝ) ≠ Real.exp (1 / 2) := this.ne
  simp only [ne_eq, mul_eq_mul_left_iff, one_mul]
  intro hcontra
  rcases hcontra with h | h
  · exact hne h
  · exact Real.exp_ne_zero _ h

/-! ## Thomas tridiagonal solver (src/pde_fd.py) -/

/-- Forward-elimination coefficients `c_prime` of `_thomas_solver`:
`c_prime[0] = upper[0]/diag[0]`,
`c_prime[i] = upper[i] / (diag[i] - lower[i-1] c_prime[i-1])`. -/
def thomasCPrime (lower diag upper : ℕ → ℝ) : ℕ → ℝ
  | 0 => upper 0 / diag 0
  | i + 1 => upper (i + 1) / (diag (i + 1) - lower i * thomasCPrime lower diag upper i)

/-- Forward-elimination right-hand side `d_prime` of `_thomas_solver`:
`d_prime[0] = rhs[0]/diag[0]`,
`d_prime[i] = (rhs[i] - lower[i-1] d_prime[i-1]) / (diag[i] - lower[i-1] c_prime[i-1])`. -/
def thomasDPrime (lower diag upper rhs : ℕ → ℝ) : ℕ → ℝ
  | 0 => rhs 0 / diag 0
  | i + 1 => (rhs (i + 1) - lower i * thomasDPrime lower diag upper rhs i)
      / (diag (i + 1) - lower i * thomasCPrime lower diag upper i)

/-- Back substitution of `_thomas_solver`, indexed by distance from the last
row: entry `k` is `x[n-1-k]`. -/
def thomasBack (lower diag upper rhs : ℕ → ℝ) (n : ℕ) : ℕ → ℝ
  | 0 => thomasDPrime lower diag upper rhs (n - 1)
  | k + 1 => thomasDPrime lower diag upper rhs (n - 2 - k)
      - thomasCPrime lower diag upper (n - 2 - k) * thomasBack lower diag upper rhs n k

/-- Embeds `_thomas_solver` for a system of size `n`: the `n == 1` early
return, else forward elimination followed by back substitution. Arrays are
total functions on indices; entries at or beyond `n` are unused. -/
def thomas_solver (n : ℕ) (lower diag upper rhs : ℕ → ℝ) : ℕ → ℝ :=
  if n = 1 then fun i => rhs i / diag i
  else fun i => thomasBack lower diag upper rhs n (n - 1 - i)

/-- The last solution entry is the last eliminated right-hand side. -/
theorem thomas_solver_last (n : ℕ) (lower diag upper rhs : ℕ → ℝ) (hn : 1 ≤ n) :
    thomas_solver n lower diag upper rhs (n - 1)
      = thomasDPrime lower diag upper rhs (n - 1) := by
  rw [thomas_solver]
  by_cases h1 : n = 1
  · subst h1
    rfl
  · rw [if_neg h1]
    rw [Nat.sub_self]
    rfl

/-- Back-substitution recurrence of `_thomas_solver`:
`x[i] = d_prime[i] - c_prime[i] x[i+1]` for `i` before the last row. -/
theorem thomas_solver_rec (n : ℕ) (lower diag upper rhs : ℕ → ℝ) (i : ℕ) (hi : i + 1 < n) :
    thomas_solver n lower diag upper rhs i
      = thomasDPrime lower diag upper rhs i
        - thomasCPrime lower diag upper i * thomas_solver n lower diag upper rhs (i + 1) := by
  have h1 : n ≠ 1 := by omega
  rw [thomas_solver, if_neg h1]
  have h2 : n - 1 - i = (n - 2 - i) + 1 := by omega
  have h3 : n - 2 - (n - 2 - i) = i := by omega
  have h4 : n - 1 - (i + 1) = n - 2 - i := by omega
  rw [h2, h4, thomasBack, h3]

/-! ## Claim C5: Thomas solver solves the tridiagonal system -/

/-- C5: for every tridiagonal system of size n >= 1 whose elimination
denominators (`diag[0]` and each `diag[i] - lower[i-1] c_prime[i-1]`) are
nonzero, the vector returned by `_thomas_solver` satisfies the system: the
two-term equation at the first row (or the single-term equation when n = 1),
the three-term equation `lower[i-1] x[i-1] + diag[i] x[i] + upper[i] x[i+1]
= rhs[i]` at every interior row, and the two-term equation at the last row. -/
theorem c5_thomas_solver_solves_system
    (n : ℕ) (lower diag upper rhs : ℕ → ℝ) (i : ℕ)
    (hn : 1 ≤ n) (hi : i < n)
    (hd0 : diag 0 ≠ 0)
    (hdi : ∀ j, j + 1 < n → diag (j + 1) - lower j * thomasCPrime lower diag upper j ≠ 0) :
    (n = 1 → diag 0 * thomas_solver n lower diag upper rhs 0 = rhs 0)
      ∧ (i = 0 → 2 ≤ n →
          diag 0 * thomas_solver n lower diag upper rhs 0
            + upper 0 * thomas_solver n lower diag upper rhs 1 = rhs 0)
      ∧ (1 ≤ i → i + 1 < n →
          lower (i - 1) * thomas_solver n lower diag upper rhs (i - 1)
            + diag i * thomas_solver n lower diag upper rhs i
            + upper i * thomas_solver n lower diag upper rhs (i + 1) = rhs i)
      ∧ (1 ≤ i → i = n - 1 →
          lower (i - 1) * thomas_solver n lower diag upper rhs (i - 1)
            + diag i * thomas_solver n lower diag upper rhs i = rhs i) := by
  have hdp0 : thomasDPrime lower diag upper rhs 0 = rhs 0 / diag 0 := rfl
  have hcp0 : thomasCPrime lower diag upper 0 = upper 0 / diag 0 := rfl
  refine ⟨?_, ?_, ?_, ?_⟩
  · intro h1
    subst h1
    rw [thomas_solver, if_pos rfl]
    field_simp
  · intro hi0 h2
    subst hi0
    rw [thomas_solver_rec n lower diag upper rhs 0 (by omega), hdp0, hcp0]
    field_simp
  · intro h1 hlt
    obtain ⟨j, rfl⟩ : ∃ j, i = j + 1 := ⟨i - 1, by omega⟩
    have hden : diag (j + 1) - lower j * thomasCPrime lower diag upper j ≠ 0 :=
      hdi j (by omega)
    have hxj : thomas_solver n lower diag upper rhs j
        = thomasDPrime lower diag upper rhs j
          - thomasCPrime lower diag upper j * thomas_solver n lower diag upper rhs (j + 1) :=
      thomas_solver_rec n lower diag upper rhs j (by omega)
    have hxj1 : thomas_solver n lower diag upper rhs (j + 1)
        = thomasDPrime lower diag upper rhs (j + 1)
          - thomasCPrime lower diag upper (j + 1)
            * thomas_solver n lower diag upper rhs (j + 2) :=
      thomas_solver_rec n lower diag upper rhs (j + 1) (by omega)
    have hdp : thomasDPrime lower diag upper rhs (j + 1)
        = (rhs (j + 1) - lower j * thomasDPrime lower diag upper rhs j)
          / (diag (j + 1) - lower j * thomasCPrime lower diag upper j) := rfl
    have hcp : thomasCPrime lower diag upper (j + 1)
        = upper (j + 1) / (diag (j + 1) - lower j * thomasCPrime lower diag upper j) := rfl
    simp only [Nat.add_sub_cancel]
    rw [hxj, hxj1, hdp, hcp]
    field_simp
    ring
  · intro h1 hlast
    obtain ⟨j, rfl⟩ : ∃ j, i = j + 1 := ⟨i - 1, by omega⟩
    have hn2 : n = j + 2 := by omega
    have hden : diag (j + 1) - lower j * thomasCPrime lower diag upper j ≠ 0 :=
      hdi j (by omega)
    have hxj : thomas_solver n lower diag upper rhs j
        = thomasDPrime lower diag upper rhs j
          - thomasCPrime lower diag upper j * thomas_solver n lower diag upper rhs (j + 1) :=
      thomas_solver_rec n lower diag upper rhs j (by omega)
    have hxlast : thomas_solver n lower diag upper rhs (j + 1)
        = thomasDPrime lower diag upper rhs (j + 1) := by
      have := thomas_solver_last n lower diag upper rhs hn
      rw [hn2] at this ⊢
      simpa using this
    have hdp : thomasDPrime lower diag upper rhs (j + 1)
        = (rhs (j + 1) - lower j * thomasDPrime lower diag upper rhs j)
          / (diag (j + 1) - lower j * thomasCPrime lower diag upper j) := rfl
    simp only [Nat.add_sub_cancel]
    rw [hxj, hxlast, hdp]
    field_simp
    ring

/-- Witness for C5 at the concrete 3-by-3 system with sub- and
super-diagonals of ones, diagonal of twos, right-hand side of ones, at the
interior row i = 1. -/
theorem c5_thomas_solver_solves_system_witness :
    ((3:ℕ) = 1 →
        (fun _ : ℕ => (2:ℝ)) 0 * thomas_solver 3 (fun _ => 1) (fun _ => 2) (fun _ => 1) (fun _ => 1) 0
          = (fun _ : ℕ => (1:ℝ)) 0)
      ∧ ((1:ℕ) = 0 → 2 ≤ 3 →
          (fun _ : ℕ => (2:ℝ)) 0 * thomas_solver 3 (fun _ => 1) (fun _ => 2) (fun _ => 1) (fun _ => 1) 0
            + (fun _ : ℕ => (1:ℝ)) 0 * thomas_solver 3 (fun _ => 1) (fun _ => 2) (fun _ => 1) (fun _ => 1) 1
            = (fun _ : ℕ => (1:ℝ)) 0)
      ∧ ((1:ℕ) ≤ 1 → 1 + 1 < 3 →
          (fun _ : ℕ => (1:ℝ)) (1 - 1) * thomas_solver 3 (fun _ => 1) (fun _ => 2) (fun _ => 1) (fun _ => 1) (1 - 1)
            + (fun _ : ℕ => (2:ℝ)) 1 * thomas_solver 3 (fun _ => 1) (fun _ => 2) (fun _ => 1) (fun _ => 1) 1
            + (fun _ : ℕ => (1:ℝ)) 1 * thomas_solver 3 (fun _ => 1) (fun _ => 2) (fun _ => 1) (fun _ => 1) (1 + 1)
            = (fun _ : ℕ => (1:ℝ)) 1)
      ∧ ((1:ℕ) ≤ 1 → (1:ℕ) = 3 - 1 →
          (fun _ : ℕ => (1:ℝ)) (1 - 1) * thomas_solver 3 (fun _ => 1) (fun _ => 2) (fun _ => 1) (fun _ => 1) (1 - 1)
            + (fun _ : ℕ => (2:ℝ)) 1 * thomas_solver 3 (fun _ => 1) (fun _ => 2) (fun _ => 1) (fun _ => 1) 1
            = (fun _ : ℕ => (1:ℝ)) 1) := by
  have hcp0 : thomasCPrime (fun _ => (1:ℝ)) (fun _ => 2) (fun _ => 1) 0 = 1 / 2 := rfl
  refine c5_thomas_solver_solves_system 3 (fun _ => 1) (fun _ => 2) (fun _ => 1) (fun _ => 1) 1
    (by norm_num) (by norm_num) (by norm_num) ?_
  intro j hj
  rcases j with _ | j
  · rw [hcp0]
    norm_num
  · rcases j with _ | j
    · have hcp1 : thomasCPrime (fun _ => (1:ℝ)) (fun _ => 2) (fun _ => 1) 1
          = 1 / (2 - 1 * (1 / 2)) := rfl
      rw [hcp1]
      norm_num
    · exact absurd hj (by omega)

/-! ## Finite-difference grid (src/pde_fd.py) -/

/-- Time-stepping scheme of `fd_price_european_bs`: `"implicit"` or `"CN"`;
any other string raises, so the recognized schemes form a two-variant type. -/
inductive Scheme
  | implicit
  | cn
deriving DecidableEq

/-- Embeds `_boundary_value`: the pair (near boundary at S = 0, far boundary
at S = S_max) at time `t`, per option kind, with `tau = T - t`. -/
def boundary_value (S_max K r q T t : ℝ) : OptionType → ℝ × ℝ
  | .call => (0, S_max * Real.exp (-(q * (T - t))) - K * Real.exp (-(r * (T - t))))
  | .put => (K * Real.exp (-(r * (T - t))), 0)

/-- Space grid node `j` of `np.linspace(0.0, S_max, M + 1)`. -/
def sGrid (S_max : ℝ) (M : ℕ) (j : ℕ) : ℝ := S_max * j / M

/-- Time grid node `n` of `np.linspace(0.0, T, N + 1)`. -/
def tGrid (T : ℝ) (N : ℕ) (n : ℕ) : ℝ := T * n / N

/-- Spatial operator coefficient `alpha_i = 0.5 sigma^2 i^2`. -/
def fdAlpha (sigma : ℝ) (i : ℕ) : ℝ := 0.5 * sigma * sigma * i * i

/-- Spatial operator coefficient `beta_i = 0.5 (r - q) i`. -/
def fdBeta (r q : ℝ) (i : ℕ) : ℝ := 0.5 * (r - q) * i

/-- One backward time step of `fd_price_european_bs`: builds the tridiagonal
system for interior nodes from the previous row `V` (the row at time index
`n + 1`), solves it with `_thomas_solver`, and assigns the two boundary
columns directly from `_boundary_value` at the current time `t_grid[n]`.
Tridiagonal arrays are indexed so that solver row `j` is grid node `i = j+1`,
matching the `lower[1:], diag, upper[:-1]` slicing in the source. -/
def fdRowStep (K r q sigma T S_max : ℝ) (M N : ℕ) (ot : OptionType) :
    Scheme → ℕ → (ℕ → ℝ) → ℕ → ℝ
  | .implicit, n, V =>
    let dt := T / N
    let LNow := (boundary_value S_max K r q T (tGrid T N n) ot).1
    let RNow := (boundary_value S_max K r q T (tGrid T N n) ot).2
    let lower := fun i : ℕ => -dt * (fdAlpha sigma i - fdBeta r q i)
    let diag := fun i : ℕ => 1 + dt * (2 * fdAlpha sigma i + r)
    let upper := fun i : ℕ => -dt * (fdAlpha sigma i + fdBeta r q i)
    let rhs := fun j : ℕ =>
      if j = 0 then V 1 - lower 1 * LNow
      else if j = M - 2 then V (M - 1) - upper (M - 1) * RNow
      else V (j + 1)
    let x := thomas_solver (M - 1) (fun j => lower (j + 2)) (fun j => diag (j + 1))
      (fun j => upper (j + 1)) rhs
    fun j => if j = 0 then LNow else if j = M then RNow else x (j - 1)
  | .cn, n, V =>
    let dt := T / N
    let LNow := (boundary_value S_max K r q T (tGrid T N n) ot).1
    let RNow := (boundary_value S_max K r q T (tGrid T N n) ot).2
    let LNext := (boundary_value S_max K r q T (tGrid T N (n + 1)) ot).1
    let RNext := (boundary_value S_max K r q T (tGrid T N (n + 1)) ot).2
    let lowerL := fun i : ℕ => -(0.5) * dt * (fdAlpha sigma i - fdBeta r q i)
    let diagL := fun i : ℕ => 1 + 0.5 * dt * (2 * fdAlpha sigma i + r)
    let upperL := fun i : ℕ => -(0.5) * dt * (fdAlpha sigma i + fdBeta r q i)
    let lowerR := fun i : ℕ => 0.5 * dt * (fdAlpha sigma i - fdBeta r q i)
    let diagR := fun i : ℕ => 1 - 0.5 * dt * (2 * fdAlpha sigma i + r)
    let upperR := fun i : ℕ => 0.5 * dt * (fdAlpha sigma i + fdBeta r q i)
    let rhs := fun j : ℕ =>
      diagR (j + 1) * V (j + 1)
        + lowerR (j + 1) * (if j = 0 then LNext else V j)
        + upperR (j + 1) * (if j = M - 2 then RNext else V (j + 2))
        - (if j = 0 then lowerL 1 * LNow else 0)
        - (if j = M - 2 then upperL (M - 1) * RNow else 0)
    let x := thomas_solver (M - 1) (fun j => lowerL (j + 2)) (fun j => diagL (j + 1))
      (fun j => upperL (j + 1)) rhs
    fun j => if j = 0 then LNow else if j = M then RNow else x (j - 1)

/-- Rows of the value grid counted backward from maturity: entry `k` is the
row at time index `N - k` (entry 0 is the terminal payoff row). -/
def fdRowsFromEnd (K r q sigma T S_max : ℝ) (M N : ℕ) (ot : OptionType) (scheme : Scheme) :
    ℕ → ℕ → ℝ
  | 0 => fun j => payoff K ot (sGrid S_max M j)
  | k + 1 => fdRowStep K r q sigma T S_max M N ot scheme (N - (k + 1))
      (fdRowsFromEnd K r q sigma T S_max M N ot scheme k)

/-- The `value_grid` of `fd_price_european_bs`: row `n`, column `j`. -/
def value_grid (K r q sigma T S_max : ℝ) (M N : ℕ) (ot : OptionType) (scheme : Scheme)
    (n : ℕ) : ℕ → ℝ :=
  fdRowsFromEnd K r q sigma T S_max M N ot scheme (N - n)

/-- Embeds the validation and grid construction of `fd_price_european_bs`
(the final interpolated price at `S0`, not needed by the claims, is omitted):
raises InvalidParameter when `M < 3` or `N < 1`, else returns the grid. -/
def fd_price_european_bs (K r q sigma T S_max : ℝ) (M N : ℕ) (ot : OptionType)
    (scheme : Scheme) : Except PricingError (ℕ → ℕ → ℝ) :=
  if M < 3 ∨ N < 1 then .error .invalidParameter
  else .ok (value_grid K r q sigma T S_max M N ot scheme)

/-- Column 0 of a stepped row is the near-boundary value, assigned directly. -/
theorem fdRowStep_col_zero (K r q sigma T S_max : ℝ) (M N : ℕ) (ot : OptionType)
    (scheme : Scheme) (n : ℕ) (V : ℕ → ℝ) :
    fdRowStep K r q sigma T S_max M N ot scheme n V 0
      = (boundary_value S_max K r q T (tGrid T N n) ot).1 := by
  cases scheme <;> simp [fdRowStep]

/-- Column M of a stepped row is the far-boundary value, assigned directly. -/
theorem fdRowStep_col_M (K r q sigma T S_max : ℝ) (M N : ℕ) (ot : OptionType)
    (scheme : Scheme) (n : ℕ) (V : ℕ → ℝ) (hM : 3 ≤ M) :
    fdRowStep K r q sigma T S_max M N ot scheme n V M
      = (boundary_value S_max K r q T (tGrid T N n) ot).2 := by
  have hM0 : ¬(M = 0) := by omega
  cases scheme <;> simp [fdRowStep, hM0]

/-! ## Claim C7: boundary columns are analytic, never solved -/

/-- C7: for every valid call to `fd_price_european_bs` (M >= 3, N >= 1,
recognized option type and scheme), the call returns the grid whose every
time row n in 0..N-1 has column 0 equal to the analytic near-boundary value
and column M equal to the analytic far-boundary value at `t_grid[n]` (the
values of `_boundary_value`, assigned directly, not solved). -/
theorem c7_fd_boundary_columns_analytic
    (K r q sigma T S_max : ℝ) (M N : ℕ) (ot : OptionType) (scheme : Scheme) (n : ℕ)
    (hM : 3 ≤ M) (hN : 1 ≤ N) (hn : n < N) :
    fd_price_european_bs K r q sigma T S_max M N ot scheme
        = .ok (value_grid K r q sigma T S_max M N ot scheme)
      ∧ value_grid K r q sigma T S_max M N ot scheme n 0
        = (boundary_value S_max K r q T (tGrid T N n) ot).1
      ∧ value_grid K r q sigma T S_max M N ot scheme n M
        = (boundary_value S_max K r q T (tGrid T N n) ot).2 := by
  have hwrap : fd_price_european_bs K r q sigma T S_max M N ot scheme
      = .ok (value_grid K r q sigma T S_max M N ot scheme) := by
    rw [fd_price_european_bs, if_neg (by omega)]
  have hsplit : N - n = (N - n - 1) + 1 := by omega
  have hidx : N - ((N - n - 1) + 1) = n := by omega
  refine ⟨hwrap, ?_, ?_⟩
  · rw [value_grid, hsplit, fdRowsFromEnd, hidx, fdRowStep_col_zero]
  · rw [value_grid, hsplit, fdRowsFromEnd, hidx, fdRowStep_col_M _ _ _ _ _ _ _ _ _ _ _ _ hM]

/-- Witness for C7 at K=100, r=0.02, q=0.01, sigma=0.2, T=1, S_max=300,
M=3, N=1, row n=0, Crank-Nicolson, call. -/
theorem c7_fd_boundary_columns_analytic_witness :
    fd_price_european_bs 100 (2 / 100) (1 / 100) (1 / 5) 1 300 3 1 .call .cn
        = .ok (value_grid 100 (2 / 100) (1 / 100) (1 / 5) 1 300 3 1 .call .cn)
      ∧ value_grid 100 (2 / 100) (1 / 100) (1 / 5) 1 300 3 1 .call .cn 0 0
        = (boundary_value 300 100 (2 / 100) (1 / 100) 1 (tGrid 1 1 0) .call).1
      ∧ value_grid 100 (2 / 100) (1 / 100) (1 / 5) 1 300 3 1 .call .cn 0 3
        = (boundary_value 300 100 (2 / 100) (1 / 100) 1 (tGrid 1 1 0) .call).2 :=
  c7_fd_boundary_columns_analytic 100 (2 / 100) (1 / 100) (1 / 5) 1 300 3 1 .call .cn 0
    (le_refl 3) (le_refl 1) Nat.zero_lt_one

/-! ## Implied volatility solver (src/implied_vol.py) -/

/-- Root-search method of `implied_vol`: `"hybrid"` or `"bisection"`. -/
inductive IvMethod
  | hybrid
  | bisection
deriving DecidableEq

/-- Embeds `_no_arbitrage_bounds`: the (lower, upper) price bounds per
option kind, from the discounted spot `S e^{-qT}` and strike `K e^{-rT}`. -/
def no_arbitrage_bounds (S K r q T : ℝ) : OptionType → ℝ × ℝ
  | .call => (max 0 (S * Real.exp (-(q * T)) - K * Real.exp (-(r * T))), S * Real.exp (-(q * T)))
  | .put => (max 0 (K * Real.exp (-(r * T)) - S * Real.exp (-(q * T))), K * Real.exp (-(r * T)))

/-- The iteration loop of `implied_vol`, with the remaining iteration budget
as fuel: Newton step when the method is hybrid, vega is above the floor and
the step stays strictly inside the bracket, else bisection with bracket
narrowing by the sign of the residual; early return on small residual or
small bracket; NonConvergence when the budget runs out. -/
def ivLoop (cdf pdf : ℝ → ℝ) (S K r q T price tol : ℝ) (ot : OptionType) (method : IvMethod) :
    ℕ → ℝ → ℝ → ℝ → Except PricingError ℝ
  | 0, _, _, _ => .error .nonConvergence
  | fuel + 1, low, high, sigma =>
    match bs_price cdf S K r q sigma T ot with
    | .error e => .error e
    | .ok model =>
      let diff := model - price
      if |diff| < tol then .ok sigma
      else
        match method with
        | .hybrid =>
          match bs_vega pdf S K r q sigma T with
          | .error e => .error e
          | .ok vega =>
            if 1e-10 < vega then
              let sigmaN := sigma - diff / vega
              if low < sigmaN ∧ sigmaN < high then
                ivLoop cdf pdf S K r q T price tol ot method fuel low high sigmaN
              else
                let low2 := if 0 < diff then low else sigma
                let high2 := if 0 < diff then sigma else high
                let sigma2 := 0.5 * (low2 + high2)
                if high2 - low2 < tol then .ok sigma2
                else ivLoop cdf pdf S K r q T price tol ot method fuel low2 high2 sigma2
            else
              let low2 := if 0 < diff then low else sigma
              let high2 := if 0 < diff then sigma else high
              let sigma2 := 0.5 * (low2 + high2)
              if high2 - low2 < tol then .ok sigma2
              else ivLoop cdf pdf S K r q T price tol ot method fuel low2 high2 sigma2
        | .bisection =>
          let low2 := if 0 < diff then low else sigma
          let high2 := if 0 < diff then sigma else high
          let sigma2 := 0.5 * (low2 + high2)
          if high2 - low2 < tol then .ok sigma2
          else ivLoop cdf pdf S K r q T price tol ot method fuel low2 high2 sigma2

/-- The bracketing stage of `implied_vol` after the bound check: endpoint
residuals, the equal-sign bracketing failure, then the iteration loop from
the bracket midpoint. -/
def iv_search (cdf pdf : ℝ → ℝ) (price S K r q T : ℝ) (ot : OptionType) (method : IvMethod)
    (lower upper tol : ℝ) (maxIter : ℕ) : Except PricingError ℝ :=
  match bs_price cdf S K r q lower T ot, bs_price cdf S K r q upper T ot with
  | .error e, _ => .error e
  | .ok _, .error e => .error e
  | .ok pLow, .ok pHigh =>
    if pLow - price = 0 then .ok lower
    else if pHigh - price = 0 then .ok upper
    else if 0 < (pLow - price) * (pHigh - price) then .error .nonConvergence
    else ivLoop cdf pdf S K r q T price tol ot method maxIter lower upper
      (0.5 * (lower + upper))

/-- Embeds `implied_vol`: positivity check, then the widened no-arbitrage
bound check raising NoArbitrageViolation, then the volatility search. -/
def implied_vol (cdf pdf : ℝ → ℝ) (price S K r q T : ℝ) (ot : OptionType) (method : IvMethod)
    (lower upper tol : ℝ) (maxIter : ℕ) : Except PricingError ℝ :=
  if price ≤ 0 then .error .invalidParameter
  else if ¬((no_arbitrage_bounds S K r q T ot).1 - tol ≤ price
      ∧ price ≤ (no_arbitrage_bounds S K r q T ot).2 + tol) then .error .noArbitrageViolation
  else iv_search cdf pdf price S K r q T ot method lower upper tol maxIter

/-- The only error `bs_price` can raise is InvalidParameter. -/
theorem bs_price_error_eq (cdf : ℝ → ℝ) (S K r q sigma T : ℝ) (ot : OptionType)
    (e : PricingError) (h : bs_price cdf S K r q sigma T ot = .error e) :
    e = .invalidParameter := by
  cases ot <;>
    (simp only [bs_price, bs_call_price, bs_put_price] at h
     split_ifs at h <;> simp_all)

/-- The only error `bs_vega` can raise is InvalidParameter. -/
theorem bs_vega_error_eq (pdf : ℝ → ℝ) (S K r q sigma T : ℝ)
    (e : PricingError) (h : bs_vega pdf S K r q sigma T = .error e) :
    e = .invalidParameter := by
  simp only [bs_vega] at h
  split_ifs at h <;> simp_all

/-- The iteration loop never raises NoArbitrageViolation: its errors are
NonConvergence or a propagated InvalidParameter. -/
theorem ivLoop_error_cases (cdf pdf : ℝ → ℝ) (S K r q T price tol : ℝ) (ot : OptionType)
    (method : IvMethod) :
    ∀ (fuel : ℕ) (low high sigma : ℝ) (e : PricingError),
      ivLoop cdf pdf S K r q T price tol ot method fuel low high sigma = .error e
        → e = .nonConvergence ∨ e = .invalidParameter := by
  intro fuel
  induction fuel with
  | zero =>
    intro low high sigma e h
    rw [ivLoop] at h
    left
    injection h with h2
    exact h2.symm
  | succ fuel ih =>
    intro low high sigma e h
    rw [ivLoop] at h
    cases hbp : bs_price cdf S K r q sigma T ot with
    | error e2 =>
      rw [hbp] at h
      right
      injection h with h2
      rw [← h2]
      exact bs_price_error_eq cdf S K r q sigma T ot e2 hbp
    | ok model =>
      rw [hbp] at h
      dsimp only at h
      cases method with
      | hybrid =>
        cases hbv : bs_vega pdf S K r q sigma T with
        | error e3 =>
          rw [hbv] at h
          dsimp only at h
          split_ifs at h <;>
            first
              | exact Except.noConfusion h
              | (right
                 injection h with h2
                 rw [← h2]
                 exact bs_vega_error_eq pdf S K r q sigma T e3 hbv)
        | ok vega =>
          rw [hbv] at h
          dsimp only at h
          split_ifs at h <;>
            first
              | exact Except.noConfusion h
              | exact ih _ _ _ _ h
      | bisection =>
        dsimp only at h
        split_ifs at h <;>
          first
            | exact Except.noConfusion h
            | exact ih _ _ _ _ h

/-- The search stage never raises NoArbitrageViolation. -/
theorem iv_search_error_cases (cdf pdf : ℝ → ℝ) (price S K r q T : ℝ) (ot : OptionType)
    (method : IvMethod) (lower upper tol : ℝ) (maxIter : ℕ) (e : PricingError)
    (h : iv_search cdf pdf price S K r q T ot method lower upper tol maxIter = .error e) :
    e = .nonConvergence ∨ e = .invalidParameter := by
  rw [iv_search] at h
  cases hlo : bs_price cdf S K r q lower T ot with
  | error e2 =>
    rw [hlo] at h
    right
    injection h with h2
    rw [← h2]
    exact bs_price_error_eq cdf S K r q lower T ot e2 hlo
  | ok pLow =>
    rw [hlo] at h
    cases hhi : bs_price cdf S K r q upper T ot with
    | error e3 =>
      rw [hhi] at h
      right
      injection h with h2
      rw [← h2]
      exact bs_price_error_eq cdf S K r q upper T ot e3 hhi
    | ok pHigh =>
      rw [hhi] at h
      dsimp only at h
      split_ifs at h <;>
        first
          | exact Except.noConfusion h
          | (left; injection h with h4; exact h4.symm)
          | exact ivLoop_error_cases cdf pdf S K r q T price tol ot method _ _ _ _ _ h

/-! ## Claim C6: no-arbitrage bound check in implied_vol -/

/-- C6 (amended): for every positive observed price, `implied_vol` raises
NoArbitrageViolation exactly when the price lies outside the widened interval
`[lower_bound - tol, upper_bound + tol]` around the `_no_arbitrage_bounds`
interval; for every positive price inside the widened interval, the solver
proceeds without ever raising that error. -/
theorem c6_implied_vol_bound_check (cdf pdf : ℝ → ℝ) (price S K r q T : ℝ) (ot : OptionType)
    (method : IvMethod) (lower upper tol : ℝ) (maxIter : ℕ) (hprice : 0 < price) :
    implied_vol cdf pdf price S K r q T ot method lower upper tol maxIter
        = .error .noArbitrageViolation
      ↔ ¬((no_arbitrage_bounds S K r q T ot).1 - tol ≤ price
          ∧ price ≤ (no_arbitrage_bounds S K r q T ot).2 + tol) := by
  rw [implied_vol, if_neg (not_le.2 hprice)]
  by_cases hb : (no_arbitrage_bounds S K r q T ot).1 - tol ≤ price
      ∧ price ≤ (no_arbitrage_bounds S K r q T ot).2 + tol
  · rw [if_neg (not_not_intro hb)]
    refine iff_of_false ?_ (not_not_intro hb)
    intro h
    rcases iv_search_error_cases cdf pdf price S K r q T ot method lower upper tol maxIter
      .noArbitrageViolation h with h2 | h2 <;> exact absurd h2 (by simp)
  · rw [if_pos hb]
    exact iff_of_true rfl hb

/-- Witness for the amended C6 at price=1, S=K=100, r=q=0, T=1, call,
hybrid method with the source defaults. -/
theorem c6_implied_vol_bound_check_witness :
    implied_vol (fun _ => 1 / 2) (fun _ => 1 / 2) 1 100 100 0 0 1 .call .hybrid
        1e-6 5 1e-8 100 = .error .noArbitrageViolation
      ↔ ¬((no_arbitrage_bounds 100 100 0 0 1 .call).1 - 1e-8 ≤ 1
          ∧ (1:ℝ) ≤ (no_arbitrage_bounds 100 100 0 0 1 .call).2 + 1e-8) :=
  c6_implied_vol_bound_check (fun _ => 1 / 2) (fun _ => 1 / 2) 1 100 100 0 0 1 .call .hybrid
    1e-6 5 1e-8 100 (by norm_num)

/-- Counterexample to C6 as stated: a non-positive observed price (-1) lies
outside the widened no-arbitrage interval, yet `implied_vol` raises
InvalidParameter (the positivity check), not NoArbitrageViolation. -/
theorem c6_implied_vol_bound_check_counterexample :
    ¬((no_arbitrage_bounds 100 100 0 0 1 .call).1 - 1e-8 ≤ (-1 : ℝ)
        ∧ (-1 : ℝ) ≤ (no_arbitrage_bounds 100 100 0 0 1 .call).2 + 1e-8)
      ∧ implied_vol (fun _ => 1 / 2) (fun _ => 1 / 2) (-1) 100 100 0 0 1 .call .hybrid
          1e-6 5 1e-8 100 = .error .invalidParameter
      ∧ (PricingError.invalidParameter ≠ PricingError.noArbitrageViolation) := by
  refine ⟨?_, ?_, by simp⟩
  · rintro ⟨h1, -⟩
    have h0 : (0:ℝ) ≤ (no_arbitrage_bounds 100 100 0 0 1 .call).1 :=
      le_max_left 0 _
    linarith
  · rw [implied_vol, if_pos (by norm_num : (-1 : ℝ) ≤ 0)]

/-! ## Smile extraction (src/stoch_vol.py) -/

/-- One row of the price table consumed by
`implied_vol_smile_from_sv_prices`: the required columns `maturity`,
`strike`, `price`, `option_type`. -/
structure PriceRow where
  maturity : ℝ
  strike : ℝ
  price : ℝ
  option_type : OptionType

/-- The per-row `_solve` helper of `implied_vol_smile_from_sv_prices`: any
inversion failure becomes the not-a-number sentinel, modelled as `none`. -/
def solve_row (cdf pdf : ℝ → ℝ) (S r q : ℝ) (method : IvMethod) (row : PriceRow) : Option ℝ :=
  match implied_vol cdf pdf row.price S row.strike r q row.maturity row.option_type method
      1e-6 5 1e-8 100 with
  | .ok v => some v
  | .error _ => none

/-- Embeds `implied_vol_smile_from_sv_prices`: returns the input rows with
an added implied-vol column (`none` standing for the NaN sentinel). -/
def implied_vol_smile_from_sv_prices (cdf pdf : ℝ → ℝ) (S r q : ℝ) (method : IvMethod)
    (rows : List PriceRow) : List (PriceRow × Option ℝ) :=
  rows.map fun row => (row, solve_row cdf pdf S r q method row)

/-! ## Claim C8: smile extraction never propagates inversion failures -/

/-- C8: `implied_vol_smile_from_sv_prices` returns a table with exactly the
input rows (it never raises): a row whose inversion fails with any error
gets the not-a-number sentinel in the implied-vol column, and a row whose
inversion succeeds gets its computed implied volatility. -/
theorem c8_smile_never_propagates (cdf pdf : ℝ → ℝ) (S r q : ℝ) (method : IvMethod)
    (rows : List PriceRow) (r0 : PriceRow) (v : ℝ) (e : PricingError) (i : ℕ)
    (hi : i < rows.length) :
    ((implied_vol_smile_from_sv_prices cdf pdf S r q method rows).map Prod.fst = rows)
      ∧ ((implied_vol_smile_from_sv_prices cdf pdf S r q method rows).getD i (r0, none)).1
        = rows.getD i r0
      ∧ (implied_vol cdf pdf (rows.getD i r0).price S (rows.getD i r0).strike r q
            (rows.getD i r0).maturity (rows.getD i r0).option_type method 1e-6 5 1e-8 100
            = .error e
          → ((implied_vol_smile_from_sv_prices cdf pdf S r q method rows).getD i (r0, none)).2
            = none)
      ∧ (implied_vol cdf pdf (rows.getD i r0).price S (rows.getD i r0).strike r q
            (rows.getD i r0).maturity (rows.getD i r0).option_type method 1e-6 5 1e-8 100
            = .ok v
          → ((implied_vol_smile_from_sv_prices cdf pdf S r q method rows).getD i (r0, none)).2
            = some v) := by
  have hmap : (implied_vol_smile_from_sv_prices cdf pdf S r q method rows).getD i (r0, none)
      = (rows.getD i r0, solve_row cdf pdf S r q method (rows.getD i r0)) := by
    rw [implied_vol_smile_from_sv_prices,
      List.getD_eq_getElem _ _ (by simpa using hi), List.getElem_map,
      List.getD_eq_getElem _ _ hi]
  refine ⟨?_, by rw [hmap], ?_, ?_⟩
  · rw [implied_vol_smile_from_sv_prices, List.map_map,
      show (Prod.fst ∘ fun row => (row, solve_row cdf pdf S r q method row)) = id from rfl,
      List.map_id]
  · intro herr
    rw [hmap]
    simp only [solve_row, herr]
  · intro hok
    rw [hmap]
    simp only [solve_row, hok]

/-- Witness for C8 on a one-row table whose price (-1) makes the inversion
fail. -/
theorem c8_smile_never_propagates_witness :
    ((implied_vol_smile_from_sv_prices (fun _ => 1 / 2) (fun _ => 1 / 2) 100 0 0 .hybrid
          [⟨1, 100, -1, .call⟩]).map Prod.fst = [⟨1, 100, -1, .call⟩])
      ∧ ((implied_vol_smile_from_sv_prices (fun _ => 1 / 2) (fun _ => 1 / 2) 100 0 0 .hybrid
            [⟨1, 100, -1, .call⟩]).getD 0 (⟨1, 100, -1, .call⟩, none)).1
        = ([⟨1, 100, -1, .call⟩] : List PriceRow).getD 0 ⟨1, 100, -1, .call⟩
      ∧ (implied_vol (fun _ => 1 / 2) (fun _ => 1 / 2)
            (([⟨1, 100, -1, .call⟩] : List PriceRow).getD 0 ⟨1, 100, -1, .call⟩).price 100
            (([⟨1, 100, -1, .call⟩] : List PriceRow).getD 0 ⟨1, 100, -1, .call⟩).strike 0 0
            (([⟨1, 100, -1, .call⟩] : List PriceRow).getD 0 ⟨1, 100, -1, .call⟩).maturity
            (([⟨1, 100, -1, .call⟩] : List PriceRow).getD 0 ⟨1, 100, -1, .call⟩).option_type
            .hybrid 1e-6 5 1e-8 100 = .error .invalidParameter
          → ((implied_vol_smile_from_sv_prices (fun _ => 1 / 2) (fun _ => 1 / 2) 100 0 0 .hybrid
                [⟨1, 100, -1, .call⟩]).getD 0 (⟨1, 100, -1, .call⟩, none)).2 = none)
      ∧ (implied_vol (fun _ => 1 / 2) (fun _ => 1 / 2)
            (([⟨1, 100, -1, .call⟩] : List PriceRow).getD 0 ⟨1, 100, -1, .call⟩).price 100
            (([⟨1, 100, -1, .call⟩] : List PriceRow).getD 0 ⟨1, 100, -1, .call⟩).strike 0 0
            (([⟨1, 100, -1, .call⟩] : List PriceRow).getD 0 ⟨1, 100, -1, .call⟩).maturity
            (([⟨1, 100, -1, .call⟩] : List PriceRow).getD 0 ⟨1, 100, -1, .call⟩).option_type
            .hybrid 1e-6 5 1e-8 100 = .ok 0
          → ((implied_vol_smile_from_sv_prices (fun _ => 1 / 2) (fun _ => 1 / 2) 100 0 0 .hybrid
                [⟨1, 100, -1, .call⟩]).getD 0 (⟨1, 100, -1, .call⟩, none)).2 = some 0) :=
  c8_smile_never_propagates (fun _ => 1 / 2) (fun _ => 1 / 2) 100 0 0 .hybrid
    [⟨1, 100, -1, .call⟩] ⟨1, 100, -1, .call⟩ 0 .invalidParameter 0 (by norm_num)

/-! ## Delta-hedging simulation (src/hedging.py) -/

/-- Embeds `_bs_delta_vectorized` at a single spot: the `tau <= 0` indicator
branch, else the closed-form delta at remaining maturity `tau`. -/
def bs_delta_vectorized (cdf : ℝ → ℝ) (S K r q sigma tau : ℝ) : OptionType → ℝ
  | .call =>
    if tau ≤ 0 then (if K < S then 1 else 0)
    else Real.exp (-(q * tau))
      * cdf ((Real.log (S / K) + (r - q + 0.5 * sigma * sigma) * tau) / (sigma * Real.sqrt tau))
  | .put =>
    if tau ≤ 0 then (if S < K then -1 else 0)
    else Real.exp (-(q * tau))
      * (cdf ((Real.log (S / K) + (r - q + 0.5 * sigma * sigma) * tau) / (sigma * Real.sqrt tau))
        - 1)

/-- The rebalance target of `simulate_delta_hedge_on_paths` at step `s`: the
analytic delta at the remaining maturity floored at 1e-12. -/
def hedgeTarget (cdf : ℝ → ℝ) (K r q sigma T : ℝ) (nSteps : ℕ) (path : ℕ → ℝ)
    (ot : OptionType) (s : ℕ) : ℝ :=
  bs_delta_vectorized cdf (path s) K r q sigma (max (T - s * (T / nSteps)) 1e-12) ot

/-- Per-path hedge state `(delta position, cash)` of
`simulate_delta_hedge_on_paths` after step `s` (state 0 is inception: short
the option, buy the initial delta, pay the initial trade cost). Each step
accrues cash at `e^{r dt}` once, then trades only on rebalance steps
(`step % k == 0` and strictly before maturity). -/
def hedgeState (cdf : ℝ → ℝ) (K r q sigma T tx : ℝ) (nSteps k : ℕ) (path : ℕ → ℝ)
    (ot : OptionType) : ℕ → ℝ × ℝ
  | 0 =>
    let S0 := path 0
    let premium := bs_price_core cdf S0 K r q sigma T ot
    let delta0 := bs_delta_core cdf S0 K r q sigma T ot
    (delta0, premium - delta0 * S0 - tx * |delta0| * S0)
  | s + 1 =>
    let prev := hedgeState cdf K r q sigma T tx nSteps k path ot s
    let cash1 := prev.2 * Real.exp (r * (T / nSteps))
    let St := path (s + 1)
    if s + 1 < nSteps ∧ (s + 1) % k = 0 then
      let tgt := hedgeTarget cdf K r q sigma T nSteps path ot (s + 1)
      (tgt, cash1 - ((tgt - prev.1) * St + tx * |tgt - prev.1| * St))
    else (prev.1, cash1)

/-! ## Claim C9: rebalance timing and cash accrual -/

/-- C9: in `simulate_delta_hedge_on_paths`, for every step s in 1..n_steps
the delta position changes only when s is a multiple of the rebalance
interval k and strictly before the maturity step (in particular it is never
retraded at maturity), and cash is multiplied by `e^{r dt}` exactly once at
step s, debited by the trade value plus proportional cost exactly on
rebalance steps. -/
theorem c9_hedge_rebalance_timing (cdf : ℝ → ℝ) (K r q sigma T tx : ℝ) (nSteps k : ℕ)
    (path : ℕ → ℝ) (ot : OptionType) (s : ℕ)
    (hk : 1 ≤ k) (hns : 1 ≤ nSteps) (hs1 : 1 ≤ s) (hs2 : s ≤ nSteps) :
    ((hedgeState cdf K r q sigma T tx nSteps k path ot s).1
        ≠ (hedgeState cdf K r q sigma T tx nSteps k path ot (s - 1)).1
      → (k ∣ s ∧ s < nSteps))
      ∧ (s = nSteps → (hedgeState cdf K r q sigma T tx nSteps k path ot s).1
          = (hedgeState cdf K r q sigma T tx nSteps k path ot (s - 1)).1)
      ∧ ((hedgeState cdf K r q sigma T tx nSteps k path ot s).2
          = (hedgeState cdf K r q sigma T tx nSteps k path ot (s - 1)).2
              * Real.exp (r * (T / nSteps))
            - (if s < nSteps ∧ s % k = 0 then
                (hedgeTarget cdf K r q sigma T nSteps path ot s
                    - (hedgeState cdf K r q sigma T tx nSteps k path ot (s - 1)).1) * path s
                  + tx * |hedgeTarget cdf K r q sigma T nSteps path ot s
                    - (hedgeState cdf K r q sigma T tx nSteps k path ot (s - 1)).1| * path s
              else 0)) := by
  obtain ⟨t, rfl⟩ : ∃ t, s = t + 1 := ⟨s - 1, by omega⟩
  simp only [Nat.add_sub_cancel]
  by_cases hreb : t + 1 < nSteps ∧ (t + 1) % k = 0
  · constructor
    · intro _
      exact ⟨Nat.dvd_of_mod_eq_zero hreb.2, hreb.1⟩
    constructor
    · intro hmat
      omega
    · rw [hedgeState, if_pos hreb, if_pos hreb]
  · constructor
    · intro hne
      exact absurd (by rw [hedgeState, if_neg hreb]) hne
    constructor
    · intro _
      rw [hedgeState, if_neg hreb]
    · rw [hedgeState, if_neg hreb, if_neg hreb]
      rw [sub_zero]

/-- Witness for C9 on a constant path of 100 with n_steps = 2, k = 1, at
step s = 1 (a rebalance step). -/
theorem c9_hedge_rebalance_timing_witness :
    ((hedgeState (fun _ => 1 / 2) 100 0 0 1 1 0 2 1 (fun _ => 100) .call 1).1
        ≠ (hedgeState (fun _ => 1 / 2) 100 0 0 1 1 0 2 1 (fun _ => 100) .call (1 - 1)).1
      → (1 ∣ 1 ∧ 1 < 2))
      ∧ ((1:ℕ) = 2 → (hedgeState (fun _ => 1 / 2) 100 0 0 1 1 0 2 1 (fun _ => 100) .call 1).1
          = (hedgeState (fun _ => 1 / 2) 100 0 0 1 1 0 2 1 (fun _ => 100) .call (1 - 1)).1)
      ∧ ((hedgeState (fun _ => 1 / 2) 100 0 0 1 1 0 2 1 (fun _ => 100) .call 1).2
          = (hedgeState (fun _ => 1 / 2) 100 0 0 1 1 0 2 1 (fun _ => 100) .call (1 - 1)).2
              * Real.exp (0 * (1 / (2:ℕ)))
            - (if 1 < 2 ∧ 1 % 1 = 0 then
                (hedgeTarget (fun _ => 1 / 2) 100 0 0 1 1 2 (fun _ => 100) .call 1
                    - (hedgeState (fun _ => 1 / 2) 100 0 0 1 1 0 2 1 (fun _ => 100) .call
                      (1 - 1)).1) * (fun _ : ℕ => (100:ℝ)) 1
                  + 0 * |hedgeTarget (fun _ => 1 / 2) 100 0 0 1 1 2 (fun _ => 100) .call 1
                    - (hedgeState (fun _ => 1 / 2) 100 0 0 1 1 0 2 1 (fun _ => 100) .call
                      (1 - 1)).1| * (fun _ : ℕ => (100:ℝ)) 1
              else 0)) :=
  c9_hedge_rebalance_timing (fun _ => 1 / 2) 100 0 0 1 1 0 2 1 (fun _ => 100) .call 1
    (le_refl 1) (by norm_num) (le_refl 1) (by norm_num)

/-! ## Claim C2: put-call parity residual -/

/-- C2: for every valid input set (S, K, sigma, T strictly positive, any r and
q) the parity residual returned by `put_call_parity_check`, namely
`C - P - (S e^{-qT} - K e^{-rT})`, is within 1e-10 of zero (it is exactly
zero), for any CDF satisfying the standard-normal symmetry
`cdf (-x) = 1 - cdf x`. -/
theorem c2_put_call_parity_residual (cdf : ℝ → ℝ)
    (hsym : ∀ x, cdf (-x) = 1 - cdf x)
    (S K r q sigma T : ℝ) (hS : 0 < S) (hK : 0 < K) (hsigma : 0 < sigma) (hT : 0 < T) :
    put_call_parity_check cdf S K r q sigma T
        = .ok (put_call_parity_check_core cdf S K r q sigma T)
      ∧ |put_call_parity_check_core cdf S K r q sigma T| ≤ 1e-10 := by
  have hzero : put_call_parity_check_core cdf S K r q sigma T = 0 := by
    unfold put_call_parity_check_core bs_call_price_core bs_put_price_core
    rw [hsym, hsym]
    ring
  refine ⟨?_, by rw [hzero]; norm_num⟩
  unfold put_call_parity_check bs_call_price bs_put_price
  simp only [if_neg (not_le.2 hS), if_neg (not_le.2 hK), if_neg (not_le.2 hsigma),
    if_neg (not_le.2 hT)]
  unfold put_call_parity_check_core
  rfl

/-- Witness for C2 at S=100, K=100, r=0.02, q=0.01, sigma=0.2, T=1 with the
constant-half CDF (which satisfies the symmetry law). -/
theorem c2_put_call_parity_residual_witness :
    put_call_parity_check (fun _ => 1 / 2) 100 100 (2 / 100) (1 / 100) (1 / 5) 1
        = .ok (put_call_parity_check_core (fun _ => 1 / 2) 100 100 (2 / 100) (1 / 100) (1 / 5) 1)
      ∧ |put_call_parity_check_core (fun _ => 1 / 2) 100 100 (2 / 100) (1 / 100) (1 / 5) 1|
        ≤ 1e-10 :=
  c2_put_call_parity_residual (fun _ => 1 / 2) (fun x => by norm_num)
    100 100 (2 / 100) (1 / 100) (1 / 5) 1
    (by norm_num) (by norm_num) (by norm_num) (by norm_num)

/-! ## Claim C3: crr_parameters no-arbitrage guard -/

/-- C3: for sigma > 0 and dt > 0, `crr_parameters` raises the no-arbitrage
error exactly when the risk-neutral probability `p` is outside `[0, 1]`;
whenever it returns normally it returns `(u, d, p)` with `p` in `[0, 1]`. -/
theorem c3_crr_parameters_noarb (r q sigma dt : ℝ) (hsigma : 0 < sigma) (hdt : 0 < dt) :
    (crr_parameters r q sigma dt = .error .noArbitrageViolation
        ↔ ¬(0 ≤ crrP r q sigma dt ∧ crrP r q sigma dt ≤ 1))
      ∧ (crr_parameters r q sigma dt = .ok (crrU sigma dt, crrD sigma dt, crrP r q sigma dt)
          → 0 ≤ crrP r q sigma dt ∧ crrP r q sigma dt ≤ 1)
      ∧ ((0 ≤ crrP r q sigma dt ∧ crrP r q sigma dt ≤ 1)
          → crr_parameters r q sigma dt = .ok (crrU sigma dt, crrD sigma dt, crrP r q sigma dt)) := by
  unfold crr_parameters
  rw [if_neg (not_le.2 hsigma), if_neg (not_le.2 hdt)]
  by_cases h : 0 ≤ crrP r q sigma dt ∧ crrP r q sigma dt ≤ 1
  · rw [if_neg (not_not_intro h)]
    simp [h]
  · rw [if_pos h]
    simp [h]

/-- Witness for C3 at r = 0, q = 0, sigma = 1, dt = 1. -/
theorem c3_crr_parameters_noarb_witness :
    (crr_parameters 0 0 1 1 = .error .noArbitrageViolation
        ↔ ¬(0 ≤ crrP 0 0 1 1 ∧ crrP 0 0 1 1 ≤ 1))
      ∧ (crr_parameters 0 0 1 1 = .ok (crrU 1 1, crrD 1 1, crrP 0 0 1 1)
          → 0 ≤ crrP 0 0 1 1 ∧ crrP 0 0 1 1 ≤ 1)
      ∧ ((0 ≤ crrP 0 0 1 1 ∧ crrP 0 0 1 1 ≤ 1)
          → crr_parameters 0 0 1 1 = .ok (crrU 1 1, crrD 1 1, crrP 0 0 1 1)) :=
  c3_crr_parameters_noarb 0 0 1 1 (by norm_num) (by norm_num)

end PortfolioOpt
